import Mathlib

/-!
Verification of the texture-container loading and mesh-texture binding core of
the muonline-bmd-viewer repository.

The development shallowly embeds two source files:

* `src/ozj-loader-node.ts` — `convertOzjToBuffer` (container sniffing: JPEG
  marker scan, OZT header validation), `ozjToPng` (embedded-stream hand-off to
  the external codec) and `oztToPng` (raw BGRA → RGBA reorder).
* `src/bmd-to-glb.ts` — the extension-equivalence table, the mesh-matching and
  material-mutation logic of `loadAndApplyTexture`, and the per-texture loop of
  `convertBmdToGlb`.

Byte buffers are `List Nat`; every read goes through `byteAt`, which mirrors
`Uint8Array` semantics (out-of-range reads are modelled by the JS `undefined`
only where the code guards them; stored values are bytes, hence the `% 256`).
External codecs (sharp, the TGA codec) are parameters returning
`Except String Bitmap`.
-/

namespace MuViewer

/-- A decoded RGBA bitmap: `pixels` is row-major R,G,B,A, first row at top. -/
structure Bitmap where
  pixels : List Nat
  width : Nat
  height : Nat
deriving Repr, DecidableEq

/-- The failures `convertOzjToBuffer` can raise, one constructor per distinct
`throw` site in the source: `'File too small for OZT'`,
`'Unsupported OZ? file'`, and the wrapped codec failure
`'Failed to decode JPEG: ...'`. -/
inductive ConvertError where
  | tooSmall
  | unsupported
  | decodeError (msg : String)
deriving Repr, DecidableEq

/-- The message text each error carries in the source. -/
def errorMessage : ConvertError → String
  | .tooSmall => "File too small for OZT"
  | .unsupported => "Unsupported OZ? file"
  | .decodeError msg => "Failed to decode JPEG: " ++ msg

/-- Reading byte `i` of the buffer, as `u8[i]` on a `Uint8Array`: a stored
value is always a byte, and the code only reads in bounds (proved separately
for the paths the claims touch). -/
def byteAt (buf : List Nat) (i : Nat) : Nat :=
  buf.getD i 0 % 256

/-- The JPEG start-of-image test `u8[i] === 0xff && u8[i+1] === 0xd8 &&
u8[i+2] === 0xff` from the marker-scan loop of `convertOzjToBuffer`. -/
def markerBool (buf : List Nat) (i : Nat) : Bool :=
  (byteAt buf i == 0xff) && (byteAt buf (i + 1) == 0xd8) && (byteAt buf (i + 2) == 0xff)

/-- The scan window of the marker loop: `for (let i = 20; i < Math.min(30,
size - 2); i++)`. -/
def scanWindow (buf : List Nat) : List Nat :=
  List.range' 20 (min 30 (buf.length - 2) - 20)

/-- `jpgStart` from `convertOzjToBuffer`: the first offset in the scan window
holding the 3-byte JPEG marker, `none` when the loop leaves `jpgStart = -1`. -/
def jpgStart (buf : List Nat) : Option Nat :=
  (scanWindow buf).find? (markerBool buf)

/-- The 16-bit little-endian unsigned value at `off` (the raw two-byte read
that `DataView.getInt16(off, true)` sign-adjusts). -/
def getUint16LE (buf : List Nat) (off : Nat) : Nat :=
  byteAt buf off + 256 * byteAt buf (off + 1)

/-- `view.getInt16(off, true)`: little-endian signed 16-bit read. -/
def getInt16LE (buf : List Nat) (off : Nat) : Int :=
  if getUint16LE buf off < 32768 then (getUint16LE buf off : Int)
  else (getUint16LE buf off : Int) - 65536

/-- The `looksLikeOzt` condition of `convertOzjToBuffer`, over the signed
header fields `nx`, `ny`, the `depth` byte and the buffer length. -/
def looksLikeOzt (nx ny : Int) (depth size : Nat) : Prop :=
  0 < nx ∧ 0 < ny ∧ nx ≤ 1024 ∧ ny ≤ 1024 ∧ depth = 32 ∧ 22 + nx * ny * 4 ≤ (size : Int)

instance (nx ny : Int) (depth size : Nat) : Decidable (looksLikeOzt nx ny depth size) := by
  unfold looksLikeOzt; infer_instance

/-- The sniffing outcome of `convertOzjToBuffer`: an OZJ with its embedded
stream offset, or an OZT with its validated dimensions. -/
inductive Classified where
  | ozj (k : Nat)
  | ozt (w h : Nat)
deriving Repr, DecidableEq

/-- The container-classification steps of `convertOzjToBuffer`, in source
order: marker scan, the `size < 22` guard, then the `looksLikeOzt` check on
the header fields read at offsets 16, 18 and 20. -/
def classify (buf : List Nat) : Except ConvertError Classified :=
  match jpgStart buf with
  | some k => .ok (.ozj k)
  | none =>
    if buf.length < 22 then .error .tooSmall
    else
      let nx := getInt16LE buf 16
      let ny := getInt16LE buf 18
      let depth := byteAt buf 20
      if looksLikeOzt nx ny depth buf.length then .ok (.ozt nx.toNat ny.toNat)
      else .error .unsupported

/-- One source pixel quad of `oztToPng`, already reordered: the loop reads
`b, g, r, a` at `offset .. offset+3` and writes `[r, g, b, a]`. -/
def oztQuad (buf : List Nat) (offset : Nat) : List Nat :=
  [byteAt buf (offset + 2), byteAt buf (offset + 1), byteAt buf offset, byteAt buf (offset + 3)]

/-- The pixel loop of `oztToPng`, flattened: the source iterates `y` then `x`
with a single running `offset`, writing quad `q = y*nx + x` of the output from
source bytes `offset = 22 + 4*q` onward. -/
def oztPixels (buf : List Nat) (offset : Nat) : Nat → List Nat
  | 0 => []
  | n + 1 => oztQuad buf offset ++ oztPixels buf (offset + 4) n

/-- `oztToPng`: raw BGRA quads at byte 22 onward, reordered to RGBA, top-down
(destination row `y` is filled from source quads `y*nx .. y*nx + nx - 1`). -/
def oztToPng (buf : List Nat) (nx ny : Nat) : Bitmap :=
  { pixels := oztPixels buf 22 (nx * ny), width := nx, height := ny }

/-- `isTopDownSort` from `ozjToPng`: read but never used (the flip is
commented out in the source). -/
def isTopDownSort (buf : List Nat) : Bool :=
  byteAt buf 17 != 0

/-- `ozjToPng`: slice the buffer from `jpgStart`, hand the slice to the
external codec (sharp) once, and wrap a codec failure as the
`'Failed to decode JPEG: ...'` error. -/
def ozjToPng (codec : List Nat → Except String Bitmap) (buf : List Nat) (jpgStartOff : Nat) :
    Except ConvertError Bitmap :=
  match codec (buf.drop jpgStartOff) with
  | .ok bm => .ok bm
  | .error msg => .error (.decodeError ("Failed to decode JPEG: " ++ msg))

/-- `convertOzjToBuffer`: classify, then decode per container kind. -/
def convertOzjToBuffer (codec : List Nat → Except String Bitmap) (buf : List Nat) :
    Except ConvertError Bitmap :=
  match classify buf with
  | .ok (.ozj k) => ozjToPng codec buf k
  | .ok (.ozt nx ny) => .ok (oztToPng buf nx ny)
  | .error e => .error e

/-!
### Bounds-checked mirror of `convertOzjToBuffer`

The same computation with every byte access performed through `List.get?`:
an out-of-bounds read would make the whole result `none`.  Proving the
checked mirror returns `some` on a path therefore certifies that the path
reads no byte outside the buffer.
-/

/-- `byteAt` through `List.get?`: `none` exactly on an out-of-bounds read. -/
def byteAtChecked (buf : List Nat) (i : Nat) : Option Nat :=
  (buf.get? i).map (fun b => b % 256)

/-- The marker test with checked reads. -/
def markerBoolChecked (buf : List Nat) (i : Nat) : Option Bool := do
  let a ← byteAtChecked buf i
  let b ← byteAtChecked buf (i + 1)
  let c ← byteAtChecked buf (i + 2)
  pure ((a == 0xff) && (b == 0xd8) && (c == 0xff))

/-- The marker-scan loop with checked reads. -/
def findMarkerChecked (buf : List Nat) : List Nat → Option (Option Nat)
  | [] => some none
  | i :: rest => do
      let m ← markerBoolChecked buf i
      if m then pure (some i) else findMarkerChecked buf rest

/-- `jpgStart` with checked reads. -/
def jpgStartChecked (buf : List Nat) : Option (Option Nat) :=
  findMarkerChecked buf (scanWindow buf)

/-- `getInt16LE` with checked reads. -/
def getInt16LEChecked (buf : List Nat) (off : Nat) : Option Int := do
  let a ← byteAtChecked buf off
  let b ← byteAtChecked buf (off + 1)
  pure (if a + 256 * b < 32768 then ((a + 256 * b : Nat) : Int)
        else ((a + 256 * b : Nat) : Int) - 65536)

/-- One source quad with checked reads. -/
def oztQuadChecked (buf : List Nat) (offset : Nat) : Option (List Nat) := do
  let b ← byteAtChecked buf offset
  let g ← byteAtChecked buf (offset + 1)
  let r ← byteAtChecked buf (offset + 2)
  let a ← byteAtChecked buf (offset + 3)
  pure [r, g, b, a]

/-- The pixel loop with checked reads. -/
def oztPixelsChecked (buf : List Nat) (offset : Nat) : Nat → Option (List Nat)
  | 0 => some []
  | n + 1 => do
      let q ← oztQuadChecked buf offset
      let rest ← oztPixelsChecked buf (offset + 4) n
      pure (q ++ rest)

/-- `convertOzjToBuffer` with every byte access checked. -/
def convertChecked (codec : List Nat → Except String Bitmap) (buf : List Nat) :
    Option (Except ConvertError Bitmap) := do
  let j ← jpgStartChecked buf
  match j with
  | some k => pure (ozjToPng codec buf k)
  | none =>
    if buf.length < 22 then pure (.error .tooSmall)
    else do
      let nx ← getInt16LEChecked buf 16
      let ny ← getInt16LEChecked buf 18
      let depth ← byteAtChecked buf 20
      if looksLikeOzt nx ny depth buf.length then do
        let px ← oztPixelsChecked buf 22 (nx.toNat * ny.toNat)
        pure (.ok { pixels := px, width := nx.toNat, height := ny.toNat })
      else pure (.error .unsupported)

/-!
### The binder (`src/bmd-to-glb.ts`)

String helpers mirror the JS path/name manipulation the binder performs:
`path.basename`, `path.extname`, `split(/[\\/]/).pop()`, `split('.').pop()`
and `replace(/\.[^.]+$/, '')`, all after `toLowerCase` where the source
lowercases.
-/

/-- `s.toLowerCase()`. -/
def toLowerStr (s : String) : String :=
  ⟨s.data.map Char.toLower⟩

/-- `p.split(/[\\/]/).pop()`: the part after the last path separator (the
whole string when there is none).  This is also how `path.basename` behaves
on the binder's ordinary file paths. -/
def lastComponentStr (s : String) : String :=
  ⟨(s.data.reverse.takeWhile (fun c => c != '/' && c != '\\')).reverse⟩

/-- `name.split('.').pop()`: the part after the last dot, or the whole name
when it has no dot. -/
def extPopStr (s : String) : String :=
  ⟨(s.data.reverse.takeWhile (fun c => c != '.')).reverse⟩

/-- `name.replace(/\.[^.]+$/, '')`: drop a final `.ext` when the last dot is
followed by at least one character. -/
def baseRegexStr (s : String) : String :=
  let r := s.data.reverse
  let e := r.takeWhile (fun c => c != '.')
  let rest := r.dropWhile (fun c => c != '.')
  if e.isEmpty || rest.isEmpty then s else ⟨rest.tail.reverse⟩

/-- `path.extname(p)`: the last dot of the basename with what follows it,
`""` when the basename has no dot or its only dot is its first character. -/
def extnameStr (p : String) : String :=
  let b := (lastComponentStr p).data
  let r := b.reverse
  let e := r.takeWhile (fun c => c != '.')
  let rest := r.dropWhile (fun c => c != '.')
  if rest.isEmpty then ""
  else if rest.tail.isEmpty then ""
  else ⟨'.' :: e.reverse⟩

/-- `normalizeWanted` from `loadAndApplyTexture`: lower-case the path's last
component, then `(base, ext)` by the regex base and `split('.').pop()`. -/
def normalizeWanted (p : String) : String × String :=
  let name := toLowerStr (lastComponentStr p)
  (baseRegexStr name, extPopStr name)

/-- `fileName = path.basename(filePath)` in `loadAndApplyTexture` (kept in
original case: it becomes `tex.name`). -/
def fileNameOf (filePath : String) : String :=
  lastComponentStr filePath

/-- `fileBase = fileName.toLowerCase().replace(/\.[^.]+$/, '')`. -/
def fileBaseOf (filePath : String) : String :=
  baseRegexStr (toLowerStr (fileNameOf filePath))

/-- `fileExt = ext.slice(1)` where `ext = path.extname(filePath).toLowerCase()`. -/
def fileExtOf (filePath : String) : String :=
  (toLowerStr (extnameStr filePath)).drop 1

/-- The `equivExt` table of `loadAndApplyTexture`, exactly as written; a key
absent from the record has no equivalents. -/
def equivExt (e : String) : List String :=
  if e == "jpg" then ["ozj", "jpeg"]
  else if e == "jpeg" then ["ozj", "jpg"]
  else if e == "ozj" then ["jpg", "jpeg", "png"]
  else if e == "png" then ["ozj", "ozt"]
  else if e == "tga" then ["ozt", "png"]
  else if e == "ozt" then ["tga", "png"]
  else []

/-- The `extMatch` expression of `loadAndApplyTexture`:
`wantedExt === fileExt || equivExt[wantedExt]?.includes(fileExt) ||
equivExt[fileExt]?.includes(wantedExt)`. -/
def matchesExt (wantedExt fileExt : String) : Bool :=
  wantedExt == fileExt || (equivExt wantedExt).contains fileExt
    || (equivExt fileExt).contains wantedExt

/-- `THREE.Blending` restricted to the modes the binder assigns
(`NormalBlending` is also the three.js default). -/
inductive Blending where
  | normal
  | no
deriving Repr, DecidableEq

/-- The material state the binder reads and writes: `map` holds the bound
texture's name (`tex.name`, the file's basename), `none` when unbound. -/
structure Material where
  map : Option String
  color : Nat
  transparent : Bool
  blending : Blending
  depthWrite : Bool
deriving Repr, DecidableEq

/-- The `THREE.MeshPhongMaterial` defaults a freshly parsed mesh carries:
no map, white color, opaque, normal blending, depth writes on. -/
def defaultPhongMaterial : Material :=
  { map := none, color := 0xffffff, transparent := false,
    blending := .normal, depthWrite := true }

/-- A mesh as the binder sees it: its `userData.texturePath` tag (`""` models
a missing tag) and its material. -/
structure Mesh where
  texturePath : String
  material : Material
deriving Repr, DecidableEq

/-- The external codecs `loadAndApplyTexture` dispatches to: sharp on an
embedded JPEG stream (used inside `convertOzjToBuffer`), the TGA codec, and
sharp on a whole ordinary image file.  The data-URL re-encode the source also
performs re-runs the same decoders, so it introduces no further outcome. -/
structure CodecEnv where
  jpeg : List Nat → Except String Bitmap
  tga : List Nat → Except String Bitmap
  sharpRaw : List Nat → Except String Bitmap

/-- The decode dispatch at the top of `loadAndApplyTexture`, by the
lower-cased `path.extname`: `.tga` → TGA codec, `.ozj`/`.ozt` →
`convertOzjToBuffer`, anything else → sharp. -/
def decodeForBind (env : CodecEnv) (ext : String) (bytes : List Nat) :
    Except ConvertError Bitmap :=
  if ext == ".tga" then
    match env.tga bytes with
    | .ok bm => .ok bm
    | .error msg => .error (.decodeError msg)
  else if ext == ".ozj" || ext == ".ozt" then
    convertOzjToBuffer env.jpeg bytes
  else
    match env.sharpRaw bytes with
    | .ok bm => .ok bm
    | .error msg => .error (.decodeError msg)

/-- The `isMatch` computed per mesh in `loadAndApplyTexture`'s traversal:
a mesh with a texture tag matches when `extMatch` holds and
`wantedBase === fileBase`. -/
def meshMatchesFile (filePath : String) (m : Mesh) : Bool :=
  if m.texturePath == "" then false
  else
    matchesExt (normalizeWanted m.texturePath).2 (fileExtOf filePath) &&
      ((normalizeWanted m.texturePath).1 == fileBaseOf filePath)

/-- The material mutation `loadAndApplyTexture` applies to a matched mesh:
for an `ozj`/`ozt` file it installs the map, resets the color and derives the
transparency trio from the extension; for any other file it only installs the
map and resets the color. -/
def applyFileToMesh (filePath : String) (m : Mesh) : Mesh :=
  if fileExtOf filePath == "ozj" || fileExtOf filePath == "ozt" then
    { m with material :=
      { map := some (fileNameOf filePath), color := 0xffffff,
        transparent := fileExtOf filePath == "ozt",
        blending := if fileExtOf filePath == "ozt" then Blending.normal else Blending.no,
        depthWrite := fileExtOf filePath != "ozt" } }
  else
    { m with material :=
      { m.material with map := some (fileNameOf filePath), color := 0xffffff } }

/-- `loadAndApplyTexture`: decode the file first (a failure propagates as a
thrown error), then mutate every matching mesh; the `Bool` is the `applied`
flag — `false` means the `'No matching mesh found'` diagnostic is printed. -/
def loadAndApplyTexture (env : CodecEnv) (meshes : List Mesh) (filePath : String)
    (bytes : List Nat) : Except ConvertError (List Mesh × Bool) :=
  match decodeForBind env (toLowerStr (extnameStr filePath)) bytes with
  | .error e => .error e
  | .ok _tex =>
      .ok (meshes.map (fun m => if meshMatchesFile filePath m then applyFileToMesh filePath m else m),
           meshes.any (meshMatchesFile filePath))

/-- The per-texture loop of `convertBmdToGlb`: for each discovered name take
only the first candidate file (`texturePaths[0]`) and bind it; there is no
try/catch around the loop body, so an error aborts the remaining names.  An
entry with no files would make `fs.readFileSync` throw, modelled by the same
error propagation. -/
def convertBmdToGlbTextures (env : CodecEnv) (meshes : List Mesh) :
    List (String × List (String × List Nat)) → Except ConvertError (List Mesh)
  | [] => .ok meshes
  | (_, files) :: rest =>
    match files with
    | [] => .error (.decodeError "ENOENT")
    | (fp, bytes) :: _ =>
      match loadAndApplyTexture env meshes fp bytes with
      | .error e => .error e
      | .ok (ms, _) => convertBmdToGlbTextures env ms rest

/-!
### Claim-side predicates

Written from the claim text, to be compared against the source-derived
functions above: the marker condition of the scan window and the OZT validity
condition over unsigned 16-bit header fields.
-/

/-- The claim's marker condition: the 3-byte JPEG marker sits at offset `k`
with `20 ≤ k ≤ 29` and fits in the buffer. -/
def markerAtSpec (buf : List Nat) (k : Nat) : Prop :=
  20 ≤ k ∧ k ≤ 29 ∧ k + 3 ≤ buf.length ∧
    byteAt buf k = 0xff ∧ byteAt buf (k + 1) = 0xd8 ∧ byteAt buf (k + 2) = 0xff

instance (buf : List Nat) (k : Nat) : Decidable (markerAtSpec buf k) := by
  unfold markerAtSpec; infer_instance

/-- The claim's OZT validity condition, over the unsigned 16-bit little-endian
width and height at offsets 16 and 18 and the depth byte at offset 20. -/
def oztValidSpec (buf : List Nat) : Prop :=
  0 < getUint16LE buf 16 ∧ getUint16LE buf 16 ≤ 1024 ∧
    0 < getUint16LE buf 18 ∧ getUint16LE buf 18 ≤ 1024 ∧
    byteAt buf 20 = 32 ∧ 22 + getUint16LE buf 16 * getUint16LE buf 18 * 4 ≤ buf.length

instance (buf : List Nat) : Decidable (oztValidSpec buf) := by
  unfold oztValidSpec; infer_instance

/-!
### Lemmas about the sniffer
-/

lemma byteAt_lt (buf : List Nat) (i : Nat) : byteAt buf i < 256 :=
  Nat.mod_lt _ (by norm_num)

lemma getUint16LE_lt (buf : List Nat) (off : Nat) : getUint16LE buf off < 65536 := by
  unfold getUint16LE
  have h1 := byteAt_lt buf off
  have h2 := byteAt_lt buf (off + 1)
  omega

lemma mem_scanWindow (buf : List Nat) (i : Nat) :
    i ∈ scanWindow buf ↔ 20 ≤ i ∧ i < 30 ∧ i + 2 < buf.length := by
  unfold scanWindow
  rw [List.mem_range'_1]
  omega

lemma markerBool_iff (buf : List Nat) (i : Nat) :
    markerBool buf i = true ↔
      byteAt buf i = 0xff ∧ byteAt buf (i + 1) = 0xd8 ∧ byteAt buf (i + 2) = 0xff := by
  unfold markerBool
  simp [Bool.and_eq_true, beq_iff_eq, and_assoc]

lemma markerAtSpec_iff (buf : List Nat) (k : Nat) :
    markerAtSpec buf k ↔ k ∈ scanWindow buf ∧ markerBool buf k = true := by
  rw [mem_scanWindow, markerBool_iff]
  unfold markerAtSpec
  constructor
  · rintro ⟨h1, h2, h3, hb1, hb2, hb3⟩
    exact ⟨⟨h1, by omega, by omega⟩, hb1, hb2, hb3⟩
  · rintro ⟨⟨h1, h2, h3⟩, hb1, hb2, hb3⟩
    exact ⟨h1, by omega, by omega, hb1, hb2, hb3⟩

lemma jpgStart_eq_none_iff (buf : List Nat) :
    jpgStart buf = none ↔ ∀ k, ¬ markerAtSpec buf k := by
  unfold jpgStart
  rw [List.find?_eq_none]
  constructor
  · intro h k hk
    rw [markerAtSpec_iff] at hk
    exact h k hk.1 hk.2
  · intro h i hi hb
    exact h i ((markerAtSpec_iff buf i).mpr ⟨hi, hb⟩)

lemma find?_range'_eq_some {p : Nat → Bool} :
    ∀ (n s k : Nat), s ≤ k → k < s + n → p k = true →
      (∀ j, s ≤ j → j < k → p j = false) →
      (List.range' s n).find? p = some k := by
  intro n
  induction n with
  | zero => intro s k h1 h2 _ _; omega
  | succ n ih =>
    intro s k h1 h2 hp hmin
    rw [show List.range' s (n + 1) = s :: List.range' (s + 1) n from rfl, List.find?_cons]
    by_cases hs : s = k
    · subst hs
      rw [hp]
    · have hfalse : p s = false := hmin s le_rfl (by omega)
      rw [hfalse]
      exact ih (s + 1) k (by omega) (by omega) hp (fun j hj1 hj2 => hmin j (by omega) hj2)

lemma jpgStart_eq_some_of (buf : List Nat) (k : Nat)
    (hk : markerAtSpec buf k) (hmin : ∀ j, j < k → ¬ markerAtSpec buf j) :
    jpgStart buf = some k := by
  obtain ⟨h1, h2, h3, hb1, hb2, hb3⟩ := hk
  unfold jpgStart scanWindow
  apply find?_range'_eq_some _ _ _ h1 (by omega) ((markerBool_iff buf k).mpr ⟨hb1, hb2, hb3⟩)
  intro j hj1 hj2
  cases hbj : markerBool buf j with
  | false => rfl
  | true =>
    exfalso
    apply hmin j hj2
    rw [markerAtSpec_iff, mem_scanWindow]
    exact ⟨⟨hj1, by omega, by omega⟩, hbj⟩

lemma classify_of_jpgStart_some (buf : List Nat) (k : Nat) (h : jpgStart buf = some k) :
    classify buf = .ok (.ozj k) := by
  unfold classify
  rw [h]

lemma convert_of_classify_error (codec : List Nat → Except String Bitmap) (buf : List Nat)
    (e : ConvertError) (h : classify buf = .error e) :
    convertOzjToBuffer codec buf = .error e := by
  unfold convertOzjToBuffer
  rw [h]

lemma int16_pos_le_iff (buf : List Nat) (off : Nat) :
    (0 < getInt16LE buf off ∧ getInt16LE buf off ≤ 1024) ↔
      (0 < getUint16LE buf off ∧ getUint16LE buf off ≤ 1024) := by
  have hlt := getUint16LE_lt buf off
  unfold getInt16LE
  split_ifs with hu <;> constructor <;> rintro ⟨a, b⟩ <;> constructor <;> omega

lemma int16_eq_of_pos (buf : List Nat) (off : Nat) (h : 0 < getInt16LE buf off) :
    getInt16LE buf off = (getUint16LE buf off : Int) := by
  have hlt := getUint16LE_lt buf off
  unfold getInt16LE at h ⊢
  split_ifs at h ⊢ with hu
  · rfl
  · omega

lemma looksLike_iff_spec (buf : List Nat) :
    looksLikeOzt (getInt16LE buf 16) (getInt16LE buf 18) (byteAt buf 20) buf.length ↔
      oztValidSpec buf := by
  unfold looksLikeOzt oztValidSpec
  constructor
  · rintro ⟨hnx, hny, hnx2, hny2, hd, hsz⟩
    have e1 := int16_eq_of_pos buf 16 hnx
    have e2 := int16_eq_of_pos buf 18 hny
    rw [e1] at hnx hnx2 hsz
    rw [e2] at hny hny2 hsz
    refine ⟨by exact_mod_cast hnx, by exact_mod_cast hnx2,
      by exact_mod_cast hny, by exact_mod_cast hny2, hd, by exact_mod_cast hsz⟩
  · rintro ⟨h1, h2, h3, h4, hd, hsz⟩
    have hs1 := (int16_pos_le_iff buf 16).mpr ⟨h1, h2⟩
    have hs2 := (int16_pos_le_iff buf 18).mpr ⟨h3, h4⟩
    have e1 := int16_eq_of_pos buf 16 hs1.1
    have e2 := int16_eq_of_pos buf 18 hs2.1
    rw [e1, e2]
    exact ⟨by exact_mod_cast h1, by exact_mod_cast h3, by exact_mod_cast h2,
      by exact_mod_cast h4, hd, by exact_mod_cast hsz⟩

lemma classify_of_no_marker (buf : List Nat) (hn : jpgStart buf = none) (h22 : 22 ≤ buf.length) :
    classify buf =
      if oztValidSpec buf then .ok (.ozt (getUint16LE buf 16) (getUint16LE buf 18))
      else .error .unsupported := by
  unfold classify
  rw [hn]
  dsimp only
  rw [if_neg (by omega)]
  by_cases hv : oztValidSpec buf
  · rw [if_pos ((looksLike_iff_spec buf).mpr hv), if_pos hv]
    have hnx := ((int16_pos_le_iff buf 16).mpr ⟨hv.1, hv.2.1⟩).1
    have hny := ((int16_pos_le_iff buf 18).mpr ⟨hv.2.2.1, hv.2.2.2.1⟩).1
    rw [int16_eq_of_pos buf 16 hnx, int16_eq_of_pos buf 18 hny,
      Int.toNat_natCast, Int.toNat_natCast]
  · rw [if_neg (fun hh => hv ((looksLike_iff_spec buf).mp hh)), if_neg hv]

lemma classify_unsupported_of (buf : List Nat) (hn : jpgStart buf = none)
    (h22 : 22 ≤ buf.length) (hv : ¬ oztValidSpec buf) :
    classify buf = .error .unsupported := by
  rw [classify_of_no_marker buf hn h22, if_neg hv]

lemma scanWindow_nil_of_small (buf : List Nat) (h : buf.length ≤ 22) :
    scanWindow buf = [] := by
  unfold scanWindow
  rw [show min 30 (buf.length - 2) - 20 = 0 by omega]
  rfl

lemma jpgStart_none_of_small (buf : List Nat) (h : buf.length ≤ 22) :
    jpgStart buf = none := by
  unfold jpgStart
  rw [scanWindow_nil_of_small buf h]
  rfl

/-!
### Lemmas about the checked mirror
-/

lemma byteAtChecked_eq (buf : List Nat) (i : Nat) (h : i < buf.length) :
    byteAtChecked buf i = some (byteAt buf i) := by
  unfold byteAtChecked byteAt
  rw [List.get?_eq_get h, List.getD_eq_get?, List.get?_eq_get h]
  rfl

lemma markerBoolChecked_eq (buf : List Nat) (i : Nat) (h : i + 2 < buf.length) :
    markerBoolChecked buf i = some (markerBool buf i) := by
  unfold markerBoolChecked markerBool
  rw [byteAtChecked_eq buf i (by omega), byteAtChecked_eq buf (i + 1) (by omega),
    byteAtChecked_eq buf (i + 2) h]
  rfl

lemma findMarkerChecked_eq (buf : List Nat) :
    ∀ l : List Nat, (∀ i ∈ l, i + 2 < buf.length) →
      findMarkerChecked buf l = some (l.find? (markerBool buf)) := by
  intro l
  induction l with
  | nil => intro _; rfl
  | cons i rest ih =>
    intro h
    unfold findMarkerChecked
    rw [markerBoolChecked_eq buf i (h i (by simp)), List.find?_cons]
    cases hb : markerBool buf i with
    | false =>
      simpa using ih (fun j hj => h j (by simp [hj]))
    | true => rfl

lemma jpgStartChecked_eq (buf : List Nat) : jpgStartChecked buf = some (jpgStart buf) := by
  unfold jpgStartChecked jpgStart
  apply findMarkerChecked_eq
  intro i hi
  rw [mem_scanWindow] at hi
  omega

lemma getInt16LEChecked_eq (buf : List Nat) (off : Nat) (h : off + 1 < buf.length) :
    getInt16LEChecked buf off = some (getInt16LE buf off) := by
  unfold getInt16LEChecked getInt16LE getUint16LE
  rw [byteAtChecked_eq buf off (by omega), byteAtChecked_eq buf (off + 1) h]
  rfl

lemma convertChecked_unsupported (codec : List Nat → Except String Bitmap) (buf : List Nat)
    (hn : jpgStart buf = none) (h22 : 22 ≤ buf.length) (hv : ¬ oztValidSpec buf) :
    convertChecked codec buf = some (.error .unsupported) := by
  unfold convertChecked
  rw [jpgStartChecked_eq buf, hn]
  show (if buf.length < 22 then _ else _) = _
  rw [if_neg (by omega)]
  rw [getInt16LEChecked_eq buf 16 (by omega), getInt16LEChecked_eq buf 18 (by omega),
    byteAtChecked_eq buf 20 (by omega)]
  show (if looksLikeOzt (getInt16LE buf 16) (getInt16LE buf 18) (byteAt buf 20) buf.length
      then _ else _) = _
  rw [if_neg (fun hh => hv ((looksLike_iff_spec buf).mp hh))]
  rfl

/-!
### Lemmas about the OZT pixel loop
-/

lemma oztQuad_length (buf : List Nat) (off : Nat) : (oztQuad buf off).length = 4 := rfl

lemma oztPixels_get? (buf : List Nat) :
    ∀ (n off q c : Nat), q < n → c < 4 →
      (oztPixels buf off n).get? (4 * q + c) = (oztQuad buf (off + 4 * q)).get? c := by
  intro n
  induction n with
  | zero => intro off q c hq _; omega
  | succ n ih =>
    intro off q c hq hc
    cases q with
    | zero =>
      unfold oztPixels
      rw [Nat.mul_zero, Nat.zero_add, List.get?_append (by rw [oztQuad_length]; omega),
        Nat.add_zero]
    | succ q' =>
      unfold oztPixels
      rw [List.get?_append_right (by rw [oztQuad_length]; omega), oztQuad_length,
        show 4 * (q' + 1) + c - 4 = 4 * q' + c by omega,
        ih (off + 4) q' c (by omega) hc,
        show off + 4 + 4 * q' = off + 4 * (q' + 1) by omega]

/-!
### Further helper lemmas (byte 17, find? congruence, drop/set)
-/

lemma byteAt_set_ne (buf : List Nat) (i j v : Nat) (h : i ≠ j) :
    byteAt (buf.set i v) j = byteAt buf j := by
  unfold byteAt
  rw [List.getD_eq_get?, List.getD_eq_get?, List.get?_set_ne _ _ h]

lemma find?_congr {p q : Nat → Bool} :
    ∀ l : List Nat, (∀ i ∈ l, p i = q i) → l.find? p = l.find? q := by
  intro l
  induction l with
  | nil => intro _; rfl
  | cons a rest ih =>
    intro h
    rw [List.find?_cons, List.find?_cons, h a (by simp)]
    cases hqa : q a with
    | true => rfl
    | false => exact ih (fun i hi => h i (by simp [hi]))

lemma jpgStart_set17 (buf : List Nat) (v : Nat) :
    jpgStart (buf.set 17 v) = jpgStart buf := by
  unfold jpgStart
  have hw : scanWindow (buf.set 17 v) = scanWindow buf := by
    unfold scanWindow
    rw [List.length_set]
  rw [hw]
  apply find?_congr
  intro i hi
  rw [mem_scanWindow] at hi
  unfold markerBool
  rw [byteAt_set_ne buf 17 i v (by omega), byteAt_set_ne buf 17 (i + 1) v (by omega),
    byteAt_set_ne buf 17 (i + 2) v (by omega)]

lemma drop_set_of_lt (buf : List Nat) (i v k : Nat) (h : i < k) :
    (buf.set i v).drop k = buf.drop k := by
  apply List.ext_get?
  intro n
  rw [List.get?_drop, List.get?_drop, List.get?_set_ne _ _ (by omega)]

/-!
### Example buffers
-/

/-- The OZT example of the spec: a 22-byte header declaring width 2, height 1,
depth 32, followed by the two BGRA quads `00 00 FF FF` and `10 20 30 FF`. -/
def oztExampleBuf : List Nat :=
  List.replicate 16 0 ++ [2, 0, 1, 0, 32, 0] ++ [0, 0, 0xff, 0xff, 0x10, 0x20, 0x30, 0xff]

/-- A truncated OZT: the header declares 1×1 depth-32 (so 26 bytes are
needed) but the buffer has only the 22 header bytes. -/
def truncatedOztBuf : List Nat :=
  List.replicate 16 0 ++ [1, 0, 1, 0, 32, 0]

/-- A buffer long enough for its declared 1×1 pixels but with depth 31:
it fails OZT validation for a reason other than truncation. -/
def badDepthBuf : List Nat :=
  List.replicate 16 0 ++ [1, 0, 1, 0, 31, 0] ++ [0, 0, 0, 0]

/-- A buffer carrying the JPEG marker at offset 20. -/
def ozjExampleBuf : List Nat :=
  List.replicate 20 0 ++ [0xff, 0xd8, 0xff]

/-- An external codec that rejects every stream. -/
def failCodec : List Nat → Except String Bitmap :=
  fun _ => .error "bad stream"

/-- An external codec that accepts every stream, echoing it as 1×1 pixels. -/
def okCodec : List Nat → Except String Bitmap :=
  fun bytes => .ok { pixels := bytes, width := 1, height := 1 }

/-!
### Claims C1, C2, C3, C7, C10 — the container loader
-/

/-- C1, counterexample: a marker-free buffer whose OZT header declares
width 1, height 1 (so `22 + 1*1*4 = 26` exceeds the 22-byte length) fails
with the same generic `'Unsupported OZ? file'` error that a non-truncated
invalid buffer (depth 31) produces — there is no distinct TruncatedData
error kind. -/
theorem claim1_counterexample :
    truncatedOztBuf.length = 22 ∧
    getUint16LE truncatedOztBuf 16 = 1 ∧
    getUint16LE truncatedOztBuf 18 = 1 ∧
    jpgStart truncatedOztBuf = none ∧
    convertOzjToBuffer failCodec truncatedOztBuf = .error .unsupported ∧
    convertOzjToBuffer failCodec badDepthBuf = .error .unsupported ∧
    errorMessage .unsupported = "Unsupported OZ? file" :=
  ⟨rfl, rfl, rfl, rfl, rfl, rfl, rfl⟩

/-- C1, amended: for every buffer with no JPEG marker in the scan window
whose OZT header declares width `w` and height `h` with `22 + w*h*4` greater
than the buffer length, decoding fails with the generic unsupported-container
error `'Unsupported OZ? file'` (the code has no distinct TruncatedData kind),
and no byte outside the buffer is read (the bounds-checked mirror returns
`some` of the same result). -/
theorem claim1_amended (codec : List Nat → Except String Bitmap) (buf : List Nat)
    (hm : ∀ k, ¬ markerAtSpec buf k) (h22 : 22 ≤ buf.length)
    (htr : buf.length < 22 + getUint16LE buf 16 * getUint16LE buf 18 * 4) :
    convertOzjToBuffer codec buf = .error .unsupported ∧
    convertChecked codec buf = some (convertOzjToBuffer codec buf) := by
  have hn : jpgStart buf = none := (jpgStart_eq_none_iff buf).mpr hm
  have hv : ¬ oztValidSpec buf := by
    intro hsp
    have := hsp.2.2.2.2.2
    omega
  have hconv := convert_of_classify_error codec buf _ (classify_unsupported_of buf hn h22 hv)
  refine ⟨hconv, ?_⟩
  rw [hconv]
  exact convertChecked_unsupported codec buf hn h22 hv

/-- C1, witness: the amended theorem applied to the concrete truncated
buffer. -/
theorem claim1_witness :
    convertOzjToBuffer failCodec truncatedOztBuf = .error .unsupported ∧
    convertChecked failCodec truncatedOztBuf =
      some (convertOzjToBuffer failCodec truncatedOztBuf) :=
  claim1_amended failCodec truncatedOztBuf
    (by
      intro k hk
      have h1 := hk.1
      have h3 := hk.2.2.1
      have hlen : truncatedOztBuf.length = 22 := rfl
      omega)
    (by decide) (by decide)

/-- C2: classification is three-way and total.  A smallest marker position
`k` in the window classifies the buffer OZJ with offset `k`; with no marker
and at least 22 bytes, the buffer classifies OZT with the unsigned
little-endian 16-bit dimensions at offsets 16 and 18 exactly when the
validity conditions hold, and fails otherwise; with no marker and fewer than
22 bytes it also fails.  The closed conjuncts instantiate each branch. -/
theorem claim2_theorem (buf : List Nat) :
    (∀ k, markerAtSpec buf k → (∀ j, j < k → ¬ markerAtSpec buf j) →
        classify buf = .ok (.ozj k)) ∧
    ((∀ k, ¬ markerAtSpec buf k) → 22 ≤ buf.length →
        (classify buf = .ok (.ozt (getUint16LE buf 16) (getUint16LE buf 18)) ↔
          oztValidSpec buf)) ∧
    ((∀ k, ¬ markerAtSpec buf k) → 22 ≤ buf.length → ¬ oztValidSpec buf →
        classify buf = .error .unsupported) ∧
    ((∀ k, ¬ markerAtSpec buf k) → buf.length < 22 →
        classify buf = .error .tooSmall) ∧
    classify ozjExampleBuf = .ok (.ozj 20) ∧
    classify oztExampleBuf = .ok (.ozt 2 1) ∧
    classify truncatedOztBuf = .error .unsupported ∧
    classify ([] : List Nat) = .error .tooSmall := by
  refine ⟨?_, ?_, ?_, ?_, rfl, rfl, rfl, rfl⟩
  · intro k hk hmin
    exact classify_of_jpgStart_some buf k (jpgStart_eq_some_of buf k hk hmin)
  · intro hm h22
    rw [classify_of_no_marker buf ((jpgStart_eq_none_iff buf).mpr hm) h22]
    by_cases hv : oztValidSpec buf
    · simp [hv]
    · simp [hv]
  · intro hm h22 hv
    exact classify_unsupported_of buf ((jpgStart_eq_none_iff buf).mpr hm) h22 hv
  · intro hm hlen
    unfold classify
    rw [(jpgStart_eq_none_iff buf).mpr hm]
    dsimp only
    rw [if_pos hlen]

/-- C3: a buffer classified OZT with dimensions `w`, `h` decodes to the
bitmap whose pixel at row `y`, column `x` is source quad `y*w + x` at byte
offset `22`, reordered from B,G,R,A to R,G,B,A, with no row reordering. -/
theorem claim3_theorem (codec : List Nat → Except String Bitmap) (buf : List Nat)
    (w h y x : Nat) (hcl : classify buf = .ok (.ozt w h)) (hy : y < h) (hx : x < w) :
    convertOzjToBuffer codec buf = .ok (oztToPng buf w h) ∧
    (oztToPng buf w h).width = w ∧
    (oztToPng buf w h).height = h ∧
    (oztToPng buf w h).pixels.get? (4 * (y * w + x)) =
      some (byteAt buf (22 + 4 * (y * w + x) + 2)) ∧
    (oztToPng buf w h).pixels.get? (4 * (y * w + x) + 1) =
      some (byteAt buf (22 + 4 * (y * w + x) + 1)) ∧
    (oztToPng buf w h).pixels.get? (4 * (y * w + x) + 2) =
      some (byteAt buf (22 + 4 * (y * w + x))) ∧
    (oztToPng buf w h).pixels.get? (4 * (y * w + x) + 3) =
      some (byteAt buf (22 + 4 * (y * w + x) + 3)) := by
  have e1 : (y + 1) * w = y * w + w := by ring
  have e2 : h * w = w * h := by ring
  have e3 : (y + 1) * w ≤ h * w := Nat.mul_le_mul_right w (by omega)
  have hq : y * w + x < w * h := by omega
  have hp0 := oztPixels_get? buf (w * h) 22 (y * w + x) 0 hq (by omega)
  have hp1 := oztPixels_get? buf (w * h) 22 (y * w + x) 1 hq (by omega)
  have hp2 := oztPixels_get? buf (w * h) 22 (y * w + x) 2 hq (by omega)
  have hp3 := oztPixels_get? buf (w * h) 22 (y * w + x) 3 hq (by omega)
  refine ⟨?_, rfl, rfl, ?_, ?_, ?_, ?_⟩
  · unfold convertOzjToBuffer
    rw [hcl]
  · exact hp0
  · exact hp1
  · exact hp2
  · exact hp3

/-- C3, witness: the spec's concrete example — width 2, height 1, pixel data
`00 00 FF FF 10 20 30 FF` decodes to `(FF,00,00,FF), (30,20,10,FF)`. -/
theorem claim3_witness :
    convertOzjToBuffer failCodec oztExampleBuf = .ok (oztToPng oztExampleBuf 2 1) ∧
    (oztToPng oztExampleBuf 2 1).pixels = [0xff, 0, 0, 0xff, 0x30, 0x20, 0x10, 0xff] ∧
    (oztToPng oztExampleBuf 2 1).pixels.get? 4 = some 0x30 :=
  ⟨(claim3_theorem failCodec oztExampleBuf 2 1 0 1 rfl (by decide) (by decide)).1,
   rfl, rfl⟩

/-- C7: for a buffer classified OZJ at offset `k`, the decoder hands exactly
the suffix from byte `k` to the external codec once, returns the codec's
output, wraps a codec failure in the `'Failed to decode JPEG:'` error, and
its result is unchanged by any value written at header byte 17 (the unused
orientation flag). -/
theorem claim7_theorem (codec : List Nat → Except String Bitmap) (buf : List Nat)
    (k v : Nat) (h : jpgStart buf = some k) :
    convertOzjToBuffer codec buf =
      (match codec (buf.drop k) with
       | .ok bm => .ok bm
       | .error msg => .error (.decodeError ("Failed to decode JPEG: " ++ msg))) ∧
    convertOzjToBuffer codec (buf.set 17 v) = convertOzjToBuffer codec buf := by
  have hk20 : 20 ≤ k := by
    have hmem : k ∈ scanWindow buf := by
      apply List.mem_of_find?_eq_some
      exact h
    rw [mem_scanWindow] at hmem
    omega
  have h2 : jpgStart (buf.set 17 v) = some k := by rw [jpgStart_set17, h]
  have hc1 : convertOzjToBuffer codec buf = ozjToPng codec buf k := by
    unfold convertOzjToBuffer
    rw [classify_of_jpgStart_some buf k h]
  have hc2 : convertOzjToBuffer codec (buf.set 17 v) = ozjToPng codec (buf.set 17 v) k := by
    unfold convertOzjToBuffer
    rw [classify_of_jpgStart_some _ k h2]
  refine ⟨by rw [hc1]; rfl, ?_⟩
  rw [hc1, hc2]
  unfold ozjToPng
  rw [drop_set_of_lt buf 17 v k (by omega)]

/-- C7, witness: the theorem at the concrete marker-at-20 buffer with an
accepting codec, and independence from byte 17 there. -/
theorem claim7_witness :
    convertOzjToBuffer okCodec ozjExampleBuf =
      .ok { pixels := [0xff, 0xd8, 0xff], width := 1, height := 1 } ∧
    convertOzjToBuffer okCodec (ozjExampleBuf.set 17 9) =
      convertOzjToBuffer okCodec ozjExampleBuf := by
  have h := claim7_theorem okCodec ozjExampleBuf 20 9 rfl
  exact ⟨by rw [h.1]; rfl, h.2⟩

/-- C10: a buffer of fewer than 22 bytes (the scan window is then empty, so
no marker can be found) fails with the distinct `'File too small for OZT'`
error before any OZT header field is read — the result is the same for every
such buffer — and that error differs from `'Unsupported OZ? file'`. -/
theorem claim10_theorem (codec : List Nat → Except String Bitmap) (buf : List Nat)
    (h : buf.length < 22) :
    convertOzjToBuffer codec buf = .error .tooSmall ∧
    errorMessage .tooSmall = "File too small for OZT" ∧
    errorMessage .unsupported = "Unsupported OZ? file" ∧
    ConvertError.tooSmall ≠ ConvertError.unsupported := by
  have hn : jpgStart buf = none := jpgStart_none_of_small buf (by omega)
  refine ⟨?_, rfl, rfl, by decide⟩
  apply convert_of_classify_error
  unfold classify
  rw [hn]
  dsimp only
  rw [if_pos h]

/-- C10, witness: the theorem at the empty buffer. -/
theorem claim10_witness :
    convertOzjToBuffer failCodec [] = .error .tooSmall ∧
    ConvertError.tooSmall ≠ ConvertError.unsupported :=
  ⟨(claim10_theorem failCodec [] (by decide)).1,
   (claim10_theorem failCodec [] (by decide)).2.2.2⟩

/-!
### Binder fixtures
-/

/-- A bitmap returned by the always-accepting external codecs. -/
def testBitmap : Bitmap := { pixels := [], width := 0, height := 0 }

/-- A codec environment whose TGA and sharp codecs accept everything and
whose JPEG codec rejects everything (the OZT paths below never reach it). -/
def acceptEnv : CodecEnv :=
  { jpeg := failCodec, tga := fun _ => .ok testBitmap, sharpRaw := fun _ => .ok testBitmap }

/-- A mesh demanding `wing.tga`, fresh from the parser. -/
def wingMesh : Mesh := { texturePath := "wing.tga", material := defaultPhongMaterial }

/-- A mesh demanding `foo.jpg`, fresh from the parser. -/
def fooMesh : Mesh := { texturePath := "foo.jpg", material := defaultPhongMaterial }

/-- A mesh demanding `b.ozt`, fresh from the parser. -/
def bMesh : Mesh := { texturePath := "b.ozt", material := defaultPhongMaterial }

/-!
### Claims C4, C5, C6, C8, C9 — the binder
-/

/-- C4, counterexample: the mesh wants `foo.jpg`; the CandidateSet entry for
`foo` holds `foo.tga` then `foo.jpg`.  The second candidate passes both
checks (base `foo`, `matches(jpg, jpg)`), yet the job leaves the mesh
unbound (`map = none`): the loop only ever consults `texturePaths[0]`. -/
theorem claim4_counterexample :
    fileBaseOf "foo.jpg" = "foo" ∧
    (normalizeWanted "foo.jpg").1 = "foo" ∧
    matchesExt (normalizeWanted "foo.jpg").2 (fileExtOf "foo.jpg") = true ∧
    convertBmdToGlbTextures acceptEnv [fooMesh]
        [("foo", [("foo.tga", []), ("foo.jpg", [])])] = .ok [fooMesh] ∧
    fooMesh.material.map = none :=
  ⟨rfl, rfl, rfl, rfl, rfl⟩

/-- C4, amended: the binder consults only the first candidate file of an
entry (later candidates are ignored even when they would pass); with that
first file decoded, a mesh is bound exactly when its normalized base equals
the file's base and the extensions match, every non-matching mesh is left
unchanged, and the job still completes (the `applied = false` case only
emits a diagnostic). -/
theorem claim4_amended (env : CodecEnv) (meshes : List Mesh) (nm fp : String)
    (bytes : List Nat) (rest : List (String × List Nat)) (bm : Bitmap)
    (hdec : decodeForBind env (toLowerStr (extnameStr fp)) bytes = .ok bm) :
    convertBmdToGlbTextures env meshes [(nm, (fp, bytes) :: rest)] =
      convertBmdToGlbTextures env meshes [(nm, [(fp, bytes)])] ∧
    convertBmdToGlbTextures env meshes [(nm, (fp, bytes) :: rest)] =
      .ok (meshes.map (fun m => if meshMatchesFile fp m then applyFileToMesh fp m else m)) ∧
    (∀ m : Mesh, meshMatchesFile fp m = true ↔
      (m.texturePath ≠ "" ∧ (normalizeWanted m.texturePath).1 = fileBaseOf fp ∧
        matchesExt (normalizeWanted m.texturePath).2 (fileExtOf fp) = true)) ∧
    loadAndApplyTexture env meshes fp bytes =
      .ok (meshes.map (fun m => if meshMatchesFile fp m then applyFileToMesh fp m else m),
           meshes.any (meshMatchesFile fp)) := by
  have hload : loadAndApplyTexture env meshes fp bytes =
      .ok (meshes.map (fun m => if meshMatchesFile fp m then applyFileToMesh fp m else m),
           meshes.any (meshMatchesFile fp)) := by
    unfold loadAndApplyTexture
    rw [hdec]
  refine ⟨?_, ?_, ?_, hload⟩
  · unfold convertBmdToGlbTextures
    dsimp only
  · unfold convertBmdToGlbTextures
    dsimp only
    rw [hload]
    rfl
  · intro m
    unfold meshMatchesFile
    by_cases ht : m.texturePath = ""
    · simp [ht]
    · rw [if_neg (by simpa using ht), Bool.and_eq_true, beq_iff_eq]
      constructor
      · rintro ⟨hext, hbase⟩
        exact ⟨ht, hbase, hext⟩
      · rintro ⟨_, hbase, hext⟩
        exact ⟨hext, hbase⟩

/-- C4, witness: the amended theorem at the `foo.tga`/`foo.jpg` entry —
only the head candidate matters, and it does not match `foo.jpg`. -/
theorem claim4_witness :
    convertBmdToGlbTextures acceptEnv [fooMesh]
        [("foo", [("foo.tga", []), ("foo.jpg", [])])] =
      convertBmdToGlbTextures acceptEnv [fooMesh] [("foo", [("foo.tga", [])])] ∧
    meshMatchesFile "foo.tga" fooMesh = false :=
  ⟨(claim4_amended acceptEnv [fooMesh] "foo" "foo.tga" [] [("foo.jpg", [])]
      testBitmap rfl).1, rfl⟩

/-- C5, counterexample: a mesh requesting `wing.tga` bound to the candidate
`wing.tga` — an accepted extension in the claimed alpha-bearing family — ends
with `transparent = false` and `depthWrite = true` (the non-ozj/ozt branch
never touches the flags), contradicting the claimed
`transparent=true, depthWrite=false` for the family. -/
theorem claim5_counterexample :
    fileExtOf "wing.tga" = "tga" ∧
    loadAndApplyTexture acceptEnv [wingMesh] "wing.tga" [] =
      .ok ([{ texturePath := "wing.tga",
              material := { map := some "wing.tga", color := 0xffffff,
                            transparent := false, blending := Blending.normal,
                            depthWrite := true } }], true) :=
  ⟨rfl, rfl⟩

/-- C5, amended: rendering flags are derived from the accepted file's
extension only when that extension is `ozt` or `ozj`: `ozt` sets
`transparent=true, blendMode=normal, depthWrite=false`; `ozj` sets
`transparent=false, blendMode=none, depthWrite=true`; every other accepted
extension (including `tga`) installs only the map and white color, leaving
the three flags unchanged.  The `wing.tga` mesh bound to the candidate
`wing.ozt` does end with `transparent=true, depthWrite=false`. -/
theorem claim5_amended (filePath : String) (m : Mesh) :
    (fileExtOf filePath = "ozt" →
      (applyFileToMesh filePath m).material =
        { map := some (fileNameOf filePath), color := 0xffffff,
          transparent := true, blending := Blending.normal, depthWrite := false }) ∧
    (fileExtOf filePath = "ozj" →
      (applyFileToMesh filePath m).material =
        { map := some (fileNameOf filePath), color := 0xffffff,
          transparent := false, blending := Blending.no, depthWrite := true }) ∧
    (fileExtOf filePath ≠ "ozt" → fileExtOf filePath ≠ "ozj" →
      (applyFileToMesh filePath m).material =
        { m.material with map := some (fileNameOf filePath), color := 0xffffff }) ∧
    loadAndApplyTexture acceptEnv [wingMesh] "wing.ozt" oztExampleBuf =
      .ok ([{ texturePath := "wing.tga",
              material := { map := some "wing.ozt", color := 0xffffff,
                            transparent := true, blending := Blending.normal,
                            depthWrite := false } }], true) := by
  refine ⟨?_, ?_, ?_, rfl⟩
  · intro he
    unfold applyFileToMesh
    rw [he]
    rfl
  · intro he
    unfold applyFileToMesh
    rw [he]
    rfl
  · intro h1 h2
    unfold applyFileToMesh
    rw [if_neg (by simp [h1, h2])]

/-- C5, witness: the amended theorem instantiated at `ozt`, `ozj` and `tga`
candidates. -/
theorem claim5_witness :
    (applyFileToMesh "a.ozt" wingMesh).material =
      { map := some "a.ozt", color := 0xffffff, transparent := true,
        blending := Blending.normal, depthWrite := false } ∧
    (applyFileToMesh "a.ozj" wingMesh).material =
      { map := some "a.ozj", color := 0xffffff, transparent := false,
        blending := Blending.no, depthWrite := true } ∧
    (applyFileToMesh "a.tga" wingMesh).material =
      { wingMesh.material with map := some "a.tga", color := 0xffffff } :=
  ⟨(claim5_amended "a.ozt" wingMesh).1 rfl,
   (claim5_amended "a.ozj" wingMesh).2.1 rfl,
   (claim5_amended "a.tga" wingMesh).2.2.1 (by decide) (by decide)⟩

/-- C6: `matchesExt` holds exactly when the extensions are equal or either
appears in the other's equivalents; the table is exactly the six-row record
of the source with every other extension owning no equivalents; hence it is
reflexive, `matches("png","ozj")` holds and `matches("jpg","tga")` fails. -/
theorem claim6_theorem :
    (∀ w c : String, matchesExt w c = true ↔
      (w = c ∨ c ∈ equivExt w ∨ w ∈ equivExt c)) ∧
    equivExt "jpg" = ["ozj", "jpeg"] ∧
    equivExt "jpeg" = ["ozj", "jpg"] ∧
    equivExt "ozj" = ["jpg", "jpeg", "png"] ∧
    equivExt "png" = ["ozj", "ozt"] ∧
    equivExt "tga" = ["ozt", "png"] ∧
    equivExt "ozt" = ["tga", "png"] ∧
    (∀ e : String, e ≠ "jpg" → e ≠ "jpeg" → e ≠ "ozj" → e ≠ "png" → e ≠ "tga" →
      e ≠ "ozt" → equivExt e = []) ∧
    (∀ e : String, matchesExt e e = true) ∧
    matchesExt "png" "ozj" = true ∧
    matchesExt "jpg" "tga" = false := by
  refine ⟨?_, rfl, rfl, rfl, rfl, rfl, rfl, ?_, ?_, rfl, rfl⟩
  · intro w c
    have hc1 : (equivExt w).contains c = (equivExt w).elem c := rfl
    have hc2 : (equivExt c).contains w = (equivExt c).elem w := rfl
    unfold matchesExt
    rw [Bool.or_eq_true, Bool.or_eq_true, hc1, hc2, beq_iff_eq]
    constructor
    · rintro ((h | h) | h)
      · exact Or.inl h
      · exact Or.inr (Or.inl (List.elem_iff.mp h))
      · exact Or.inr (Or.inr (List.elem_iff.mp h))
    · rintro (h | h | h)
      · exact Or.inl (Or.inl h)
      · exact Or.inl (Or.inr (List.elem_iff.mpr h))
      · exact Or.inr (List.elem_iff.mpr h)
  · intro e h1 h2 h3 h4 h5 h6
    unfold equivExt
    rw [if_neg (by simp [h1]), if_neg (by simp [h2]), if_neg (by simp [h3]),
      if_neg (by simp [h4]), if_neg (by simp [h5]), if_neg (by simp [h6])]
  · intro e
    unfold matchesExt
    simp

/-- C8, counterexample: a job with two texture names, `a` (whose only
candidate `a.ozt` fails to decode: 22 zero bytes fail OZT validation) and
`b` (a valid OZT); the decode failure on `a` aborts the whole job — the
result is the propagated error and `b.ozt` is never bound. -/
theorem claim8_counterexample :
    convertOzjToBuffer failCodec (List.replicate 22 0) = .error .unsupported ∧
    convertBmdToGlbTextures acceptEnv [bMesh]
        [("a", [("a.ozt", List.replicate 22 0)]), ("b", [("b.ozt", oztExampleBuf)])] =
      .error .unsupported :=
  ⟨rfl, rfl⟩

/-- C8, amended: when every entry's first candidate decodes successfully the
job completes (matching failures only produce diagnostics and do not abort);
but a decode failure on one texture name aborts the remaining names of the
job: the error propagates out of the per-texture loop. -/
theorem claim8_amended :
    (∀ (env : CodecEnv) (meshes : List Mesh)
        (entries : List (String × List (String × List Nat))),
      (∀ e ∈ entries, ∃ fp bytes rest bm, e.2 = (fp, bytes) :: rest ∧
          decodeForBind env (toLowerStr (extnameStr fp)) bytes = .ok bm) →
      ∃ ms, convertBmdToGlbTextures env meshes entries = .ok ms) ∧
    (∀ (env : CodecEnv) (meshes : List Mesh) (nm fp : String) (bytes : List Nat)
        (rest : List (String × List Nat))
        (entries : List (String × List (String × List Nat))) (err : ConvertError),
      decodeForBind env (toLowerStr (extnameStr fp)) bytes = .error err →
      convertBmdToGlbTextures env meshes ((nm, (fp, bytes) :: rest) :: entries) =
        .error err) := by
  constructor
  · intro env meshes entries
    induction entries generalizing meshes with
    | nil => intro _; exact ⟨meshes, rfl⟩
    | cons e erest ih =>
      intro h
      obtain ⟨fp, bytes, crest, bm, he, hdec⟩ := h e (by simp)
      obtain ⟨nm, files⟩ := e
      simp only at he
      subst he
      unfold convertBmdToGlbTextures loadAndApplyTexture
      dsimp only
      rw [hdec]
      exact ih _ (fun e' he' => h e' (by simp [he']))
  · intro env meshes nm fp bytes rest entries err hdec
    unfold convertBmdToGlbTextures loadAndApplyTexture
    dsimp only
    rw [hdec]

/-- C9: a successful bind of one file rewrites the mesh list positionally,
and every mesh whose normalized base name differs from the file's base is
left entirely unchanged — material included — by that bind. -/
theorem claim9_theorem (env : CodecEnv) (meshes : List Mesh) (filePath : String)
    (bytes : List Nat) (ms : List Mesh) (applied : Bool)
    (h : loadAndApplyTexture env meshes filePath bytes = .ok (ms, applied)) :
    ms = meshes.map
      (fun m => if meshMatchesFile filePath m then applyFileToMesh filePath m else m) ∧
    ∀ m : Mesh, (normalizeWanted m.texturePath).1 ≠ fileBaseOf filePath →
      (if meshMatchesFile filePath m then applyFileToMesh filePath m else m) = m := by
  constructor
  · unfold loadAndApplyTexture at h
    cases hdec : decodeForBind env (toLowerStr (extnameStr filePath)) bytes with
    | error e =>
      rw [hdec] at h
      exact absurd h (by simp)
    | ok bm =>
      rw [hdec] at h
      simp only [Except.ok.injEq, Prod.mk.injEq] at h
      exact h.1.symm
  · intro m hbase
    have hb : ((normalizeWanted m.texturePath).1 == fileBaseOf filePath) = false :=
      beq_eq_false_iff_ne.mpr hbase
    have hfalse : meshMatchesFile filePath m = false := by
      unfold meshMatchesFile
      by_cases ht : m.texturePath == ""
      · rw [if_pos ht]
      · rw [if_neg ht, hb, Bool.and_false]
    rw [hfalse]
    rfl

/-- C9, witness: binding `bar.ozt` leaves the `foo.jpg` mesh untouched. -/
theorem claim9_witness :
    (if meshMatchesFile "bar.ozt" fooMesh then applyFileToMesh "bar.ozt" fooMesh
     else fooMesh) = fooMesh :=
  (claim9_theorem acceptEnv [fooMesh] "bar.ozt" oztExampleBuf [fooMesh] false rfl).2
    fooMesh (by decide)

end MuViewer
